import Mathlib

/-!
Verification of the record-extraction-and-aggregation engine of
`jira_issues.py` (JIRA issue scraper → multi-sheet Excel report).

The Python source is shallowly embedded: DOM rows become explicit
structures of optional cells (Selenium `find_element` raising
`NoSuchElementException` is modelled as an `Option` that the translated
`try/except` blocks consume; `get_attribute` returns `Option String`,
`none` standing for Python `None`), the pandas/openpyxl sheet becomes a
grid of cells with formatting fields, and Python exceptions that escape a
function are modelled with `Except`.
-/

set_option autoImplicit false

namespace JiraIssues

/-! ## Python string primitives used by the source -/

/-- The ASCII whitespace characters Python `str.strip()` removes (the
source's inputs are ASCII; the further Unicode space classes are not
modelled). -/
def isSpaceChar (c : Char) : Bool :=
  c = ' ' || c = '\t' || c = '\n' || c = '\r' || c = '\x0b' || c = '\x0c'

/-- Python `str.strip()` (whitespace at both ends), as used on every
extracted text in `extract_jira_issues`. -/
def pyStrip (s : String) : String :=
  ⟨((s.data.dropWhile isSpaceChar).reverse.dropWhile isSpaceChar).reverse⟩

/-- Python `str.lower()` restricted to the ASCII letters that occur in
environment-variable-derived sheet names (`format_sheet_name`, line 676). -/
def pyLower (s : String) : String := ⟨s.data.map Char.toLower⟩

/-- One step of Python `str.title()`: a cased character is uppercased when
the previous character is not alphabetic and lowercased otherwise. -/
def pyTitleGo : Bool → List Char → List Char
  | _, [] => []
  | prevAlpha, c :: t =>
    let c' := if c.isAlpha then (if prevAlpha then c.toLower else c.toUpper) else c
    c' :: pyTitleGo c.isAlpha t

/-- Python `str.title()` (`format_sheet_name`, line 679). -/
def pyTitle (s : String) : String := ⟨pyTitleGo false s.data⟩

/-- Does `pat` occur at the head of `l`? -/
def headMatches : List Char → List Char → Bool
  | [], _ => true
  | _ :: _, [] => false
  | p :: ps, c :: cs => p == c && headMatches ps cs

/-- Python `str.replace(pat, rep)` on character lists: non-overlapping,
left to right.  The fuel argument (instantiated with the input length)
only makes the recursion structural; every call site consumes at least
one character per unit of fuel, so the fuel never runs out. -/
def pyReplaceAux (pat rep : List Char) : Nat → List Char → List Char
  | 0, l => l
  | _ + 1, [] => []
  | fuel + 1, c :: t =>
    if !pat.isEmpty && headMatches pat (c :: t) then
      rep ++ pyReplaceAux pat rep fuel (List.drop pat.length (c :: t))
    else
      c :: pyReplaceAux pat rep fuel t

/-- Python `str.replace` (used to strip the filter prefix, line 738).
For the empty pattern Python interleaves the replacement; the source only
ever passes non-empty patterns, for which this is exact. -/
def pyReplace (s pat rep : String) : String :=
  ⟨pyReplaceAux pat.data rep.data s.data.length s.data⟩

/-! ## The datetime model

Models the slice of `dateutil.parser.isoparse` and of
`datetime.astimezone(timezone.utc).replace(tzinfo=None)` exercised on
line 328-332: ISO-8601 extended dates with optional time, fractional
seconds and UTC offset.  Calendar arithmetic uses the standard
civil-from-days / days-from-civil algorithms over `Int` with Euclidean
(floor) division, matching Python's `datetime` arithmetic. -/

/-- A timezone-aware datetime, as returned by `parser.isoparse` for an
input carrying an offset (`offsetMinutes` east of UTC; `some 0` is UTC
itself, `none` is a naive parse result). -/
structure AwareDT where
  year : Int
  month : Int
  day : Int
  hour : Int
  minute : Int
  second : Int
  micro : Int
  offsetMinutes : Option Int
  deriving DecidableEq, Repr

/-- A naive (timezone-free) datetime, the type the source stores in the
`Created` column after stripping `tzinfo`. -/
structure NaiveDT where
  year : Int
  month : Int
  day : Int
  hour : Int
  minute : Int
  second : Int
  micro : Int
  deriving DecidableEq, Repr

/-- Days from 1970-01-01 of a civil date (proleptic Gregorian). -/
def daysFromCivil (y m d : Int) : Int :=
  let y := if m ≤ 2 then y - 1 else y
  let era := Int.ediv y 400
  let yoe := y - era * 400
  let mp := Int.emod (m + 9) 12
  let doy := Int.ediv (153 * mp + 2) 5 + d - 1
  let doe := yoe * 365 + Int.ediv yoe 4 - Int.ediv yoe 100 + doy
  era * 146097 + doe - 719468

/-- Civil date of a count of days from 1970-01-01. -/
def civilFromDays (z : Int) : Int × Int × Int :=
  let z := z + 719468
  let era := Int.ediv z 146097
  let doe := z - era * 146097
  let yoe := Int.ediv (doe - Int.ediv doe 1460 + Int.ediv doe 36524 - Int.ediv doe 146096) 365
  let y := yoe + era * 400
  let doy := doe - (365 * yoe + Int.ediv yoe 4 - Int.ediv yoe 100)
  let mp := Int.ediv (5 * doy + 2) 153
  let d := doy - Int.ediv (153 * mp + 2) 5 + 1
  let m := if mp < 10 then mp + 3 else mp - 9
  (if m ≤ 2 then y + 1 else y, m, d)

/-- `dt.astimezone(timezone.utc).replace(tzinfo=None)` (lines 330-332):
shift the wall-clock fields by the negated offset and drop the tag.  A
datetime without offset is already treated as local = UTC wall clock by
the source only through this call; `isoparse` results fed to it always
carry their parsed offset (or none, in which case `astimezone` would
attach the machine-local zone — the source's inputs always carry one, so
the `none` case keeps the fields unchanged here). -/
def awareToUtcNaive (a : AwareDT) : NaiveDT :=
  match a.offsetMinutes with
  | none => ⟨a.year, a.month, a.day, a.hour, a.minute, a.second, a.micro⟩
  | some off =>
    let total := daysFromCivil a.year a.month a.day * 86400
        + a.hour * 3600 + a.minute * 60 + a.second - off * 60
    let days := Int.ediv total 86400
    let rem := Int.emod total 86400
    let c := civilFromDays days
    ⟨c.1, c.2.1, c.2.2, Int.ediv rem 3600, Int.ediv (Int.emod rem 3600) 60,
      Int.emod rem 60, a.micro⟩

/-- Is `y` a Gregorian leap year? -/
def isLeap (y : Int) : Bool := Int.emod y 4 == 0 && (Int.emod y 100 != 0 || Int.emod y 400 == 0)

/-- Length of month `m` in year `y`. -/
def daysInMonth (y m : Int) : Int :=
  if m == 2 then (if isLeap y then 29 else 28)
  else if m == 4 || m == 6 || m == 9 || m == 11 then 30
  else 31

/-- One decimal digit. -/
def digitVal (c : Char) : Option Nat :=
  if c.isDigit then some (c.toNat - 48) else none

/-- Read exactly `n` decimal digits. -/
def readDigits : Nat → List Char → Option (Nat × List Char)
  | 0, l => some (0, l)
  | _ + 1, [] => none
  | n + 1, c :: t => do
    let d ← digitVal c
    let (rest, l) ← readDigits n t
    pure (d * 10 ^ n + rest, l)

/-- Read a run of 1 to 6 fractional-second digits, scaled to microseconds
(the same truncation `isoparse` applies). -/
def readFraction (l : List Char) : Option (Nat × List Char) :=
  let digs := l.takeWhile Char.isDigit
  let rest := l.dropWhile Char.isDigit
  if digs.isEmpty || digs.length > 6 then none
  else
    let v := digs.foldl (fun acc c => acc * 10 + (c.toNat - 48)) 0
    some (v * 10 ^ (6 - digs.length), rest)

/-- Parse the trailing UTC-offset designator accepted by `isoparse`:
`Z`/`z`, `±HH`, `±HHMM` or `±HH:MM`; the whole input must be consumed. -/
def readOffset : List Char → Option Int
  | [] => none
  | ['Z'] => some 0
  | ['z'] => some 0
  | sign :: t =>
    let sgn : Int := if sign = '+' then 1 else if sign = '-' then -1 else 0
    if sgn == 0 then none
    else
      match readDigits 2 t with
      | none => none
      | some (hh, rest) =>
        if hh > 23 then none
        else
          match rest with
          | [] => some (sgn * (hh * 60))
          | ':' :: r2 =>
            match readDigits 2 r2 with
            | some (mm, []) => if mm > 59 then none else some (sgn * (hh * 60 + mm))
            | _ => none
          | r2 =>
            match readDigits 2 r2 with
            | some (mm, []) => if mm > 59 then none else some (sgn * (hh * 60 + mm))
            | _ => none

/-- The time-of-day part `HH[:MM[:SS[.ffffff]]]` plus optional offset. -/
def readTime (l : List Char) : Option (Nat × Nat × Nat × Nat × Option Int) := do
  let (hh, r1) ← readDigits 2 l
  if hh > 23 then none else
  match r1 with
  | [] => pure (hh, 0, 0, 0, none)
  | ':' :: r2 => do
    let (mm, r3) ← readDigits 2 r2
    if mm > 59 then none else
    match r3 with
    | [] => pure (hh, mm, 0, 0, none)
    | ':' :: r4 => do
      let (ss, r5) ← readDigits 2 r4
      if ss > 59 then none else
      match r5 with
      | [] => pure (hh, mm, ss, 0, none)
      | '.' :: r6 => do
        let (us, r7) ← readFraction r6
        match r7 with
        | [] => pure (hh, mm, ss, us, none)
        | off => do
          let o ← readOffset off
          pure (hh, mm, ss, us, some o)
      | off => do
        let o ← readOffset off
        pure (hh, mm, ss, 0, some o)
    | off => do
      let o ← readOffset off
      pure (hh, mm, 0, 0, some o)
  | off => do
    let o ← readOffset off
    pure (hh, 0, 0, 0, some o)

/-- `dateutil.parser.isoparse` on the extended format
`YYYY-MM-DD[THH[:MM[:SS[.ffffff]]]][Z|±HH[[:]MM]]`: the shape of every
`datetime` attribute the scraped `time` elements carry.  Returns `none`
exactly where `isoparse` raises `ValueError` (which the source's inner
`except` turns into the raw-string fallback): syntax errors, and field
values the `datetime` constructor rejects (month, day-of-month, hour,
minute, second or year range). -/
def isoparse (s : String) : Option AwareDT := do
  let (y, r1) ← readDigits 4 s.data
  if y < 1 then none else
  match r1 with
  | '-' :: r2 => do
    let (mo, r3) ← readDigits 2 r2
    if mo < 1 || mo > 12 then none else
    match r3 with
    | '-' :: r4 => do
      let (d, r5) ← readDigits 2 r4
      if d < 1 || (d : Int) > daysInMonth y mo then none else
      match r5 with
      | [] => pure ⟨y, mo, d, 0, 0, 0, 0, none⟩
      | 'T' :: r6 => do
        let (hh, mm, ss, us, off) ← readTime r6
        pure ⟨y, mo, d, hh, mm, ss, us, off⟩
      | _ => none
    | _ => none
  | _ => none

/-! ## The DOM row model

One scraped table row (`#issuetable tbody tr`).  Every Selenium
`find_element` that may raise `NoSuchElementException` is an `Option`
field; `get_attribute` is an `Option String` (`none` = Python `None`);
`.text` is a plain `String` (Selenium never returns `None` for it). -/

/-- An `img` element: only its `alt` attribute is read (lines 232, 274). -/
structure ImgElem where
  alt : Option String
  deriving DecidableEq, Repr

/-- A `time` element: only its `datetime` attribute is read (line 322). -/
structure TimeElem where
  datetimeAttr : Option String
  deriving DecidableEq, Repr

/-- An `a.issue-link` anchor: only its `href` attribute is read (line 218). -/
structure AnchorElem where
  href : Option String
  deriving DecidableEq, Repr

/-- The `td.issuekey` cell with its optional `a.issue-link` child. -/
structure IssuekeyTd where
  issueLink : Option AnchorElem
  deriving DecidableEq, Repr

/-- A cell whose nested `img` is read (`td.issuetype`, `td.priority`). -/
structure ImgTd where
  img : Option ImgElem
  deriving DecidableEq, Repr

/-- A cell whose nested text element is read (`td.summary` `p`,
`td.status` `span`): the `Option` is the nested element, the `String` its
text. -/
structure NestedTextTd where
  nested : Option String
  deriving DecidableEq, Repr

/-- A cell read via its own text (`td.customfield_14400`,
`td.customfield_15400`). -/
structure TextTd where
  text : String
  deriving DecidableEq, Repr

/-- The `td.assignee` cell: optional `em` child (text), optional
`a.user-hover` child (text), and the cell's own text. -/
structure AssigneeTd where
  em : Option String
  userHover : Option String
  text : String
  deriving DecidableEq, Repr

/-- The `td.created` cell with its optional nested `time` element. -/
structure CreatedTd where
  time : Option TimeElem
  deriving DecidableEq, Repr

/-- One row of the issue table. -/
structure Row where
  dataIssuekey : Option String
  issuekeyTd : Option IssuekeyTd
  issuetypeTd : Option ImgTd
  summaryTd : Option NestedTextTd
  statusTd : Option NestedTextTd
  priorityTd : Option ImgTd
  customfield14400Td : Option TextTd
  assigneeTd : Option AssigneeTd
  createdTd : Option CreatedTd
  customfield15400Td : Option TextTd
  deriving DecidableEq, Repr

/-! ## Field values and records -/

/-- A value stored into one of the per-issue column lists.  Python is
dynamically typed here: the source's lists hold strings, `None` (the
`href` of an anchor without the attribute), or naive `datetime` objects.
`vaware` (an offset-carrying datetime) is representable so that "never
stores an aware datetime" is a statement, not a tautology. -/
inductive FVal where
  | vs (s : String)
  | vnone
  | vdt (d : NaiveDT)
  | vaware (d : AwareDT)
  deriving DecidableEq, Repr

/-- Is the value a timezone-aware datetime? -/
def FVal.isAware : FVal → Bool
  | .vaware _ => true
  | _ => false

/-- One assembled issue record: one entry of each of the ten column lists
of `extract_jira_issues` (lines 354-363), i.e. one DataFrame row. -/
structure Record where
  issueKey : String
  issueType : String
  issueLink : FVal
  summary : String
  status : String
  priority : String
  customerObjectId : String
  assignee : String
  created : FVal
  classification : String
  deriving DecidableEq, Repr

/-! ## Per-field extractors (lines 202-350)

Each extractor is the total function the corresponding `try/except`
block denotes; it receives only the cell(s) that block touches.  A
`none` cell is the `NoSuchElementException` arm of the block. -/

/-- Lines 206-220: issue link.  `issue_link` starts as `""`; a missing
`td` or anchor raises and is caught, leaving `""`; a present anchor
yields `get_attribute("href")` unchanged — Python `None` (here `vnone`)
when the attribute is absent, with no exception raised. -/
def extract_issue_link : Option IssuekeyTd → FVal
  | none => .vs ""
  | some td =>
    match td.issueLink with
    | none => .vs ""
    | some a =>
      match a.href with
      | none => .vnone
      | some h => .vs h

/-- Lines 222-234: issue type from the `img` `alt` attribute.  A missing
`td`/`img` raises `NoSuchElementException`; a missing `alt` makes
`None.strip()` raise `AttributeError`; both are caught leaving `""`. -/
def extract_issue_type : Option ImgTd → String
  | none => ""
  | some td =>
    match td.img with
    | none => ""
    | some i =>
      match i.alt with
      | none => ""
      | some a => pyStrip a

/-- Lines 236-248: summary from the nested `p` element's text. -/
def extract_summary : Option NestedTextTd → String
  | none => ""
  | some td =>
    match td.nested with
    | none => ""
    | some t => pyStrip t

/-- Lines 250-262: status from the nested `span` element's text. -/
def extract_status : Option NestedTextTd → String
  | none => ""
  | some td =>
    match td.nested with
    | none => ""
    | some t => pyStrip t

/-- Lines 264-276: priority from the `img` `alt` attribute (same shape as
the issue type block). -/
def extract_priority : Option ImgTd → String
  | none => ""
  | some td =>
    match td.img with
    | none => ""
    | some i =>
      match i.alt with
      | none => ""
      | some a => pyStrip a

/-- Lines 278-287 and 341-350: a custom field read directly from the
cell's text. -/
def extract_td_text : Option TextTd → String
  | none => ""
  | some td => pyStrip td.text

/-- Lines 289-310: assignee, three nested `try` tiers — `em` text, else
`a.user-hover` text, else the cell's own text; a missing `td.assignee`
is caught by the outer `except` leaving `""`. -/
def extract_assignee : Option AssigneeTd → String
  | none => ""
  | some td =>
    match td.em with
    | some e => pyStrip e
    | none =>
      match td.userHover with
      | some u => pyStrip u
      | none => pyStrip td.text

/-- Is a UTC-converted instant representable as a Python `datetime`
(year 1..9999)?  `astimezone` raises `OverflowError` outside this range,
which the inner `except` (line 333) also catches. -/
def utcInRange (n : NaiveDT) : Bool := 1 ≤ n.year && n.year ≤ 9999

/-- Lines 312-339: created date.  `created_date` starts as `""`; a
missing `td.created`/`time` element raises and is caught leaving `""`; a
missing or empty `datetime` attribute fails the `if iso_date:` test
leaving `""`; a non-empty attribute is parsed with `isoparse` and
converted to a naive UTC instant, any parse or conversion error being
caught with the raw attribute string as fallback. -/
def extract_created : Option CreatedTd → FVal
  | none => .vs ""
  | some td =>
    match td.time with
    | none => .vs ""
    | some t =>
      match t.datetimeAttr with
      | none => .vs ""
      | some s =>
        if s = "" then .vs ""
        else
          match isoparse s with
          | none => .vs s
          | some d =>
            let n := awareToUtcNaive d
            if utcInRange n then .vdt n else .vs s

/-! ## Record assembly (lines 202-383) -/

/-- Python truthiness of the `data-issuekey` attribute (line 353,
`if issue_key:`): present and non-empty. -/
def keyTruthy (row : Row) : Bool :=
  match row.dataIssuekey with
  | none => false
  | some s => s != ""

/-- All ten field extractions for one row (every block runs regardless of
the key; the key gate only controls the append on lines 352-363). -/
def mkRecord (k : String) (row : Row) : Record where
  issueKey := k
  issueType := extract_issue_type row.issuetypeTd
  issueLink := extract_issue_link row.issuekeyTd
  summary := extract_summary row.summaryTd
  status := extract_status row.statusTd
  priority := extract_priority row.priorityTd
  customerObjectId := extract_td_text row.customfield14400Td
  assignee := extract_assignee row.assigneeTd
  created := extract_created row.createdTd
  classification := extract_td_text row.customfield15400Td

/-- The spec's `RecordAssembler.assemble`: the body of the row loop —
a `Record` when `data-issuekey` is truthy, `null` (row skipped)
otherwise. -/
def assembleRow (row : Row) : Option Record :=
  match row.dataIssuekey with
  | none => none
  | some k => if k = "" then none else some (mkRecord k row)

/-- The row loop of `extract_jira_issues` (lines 202-363): each row whose
key is truthy appends one entry to every column list; the DataFrame rows
are these entries in loop order. -/
def extractRecords (rows : List Row) : List Record :=
  rows.foldl
    (fun acc row =>
      match assembleRow row with
      | some r => acc ++ [r]
      | none => acc)
    []

/-! ## Navigation, extraction entry point and the per-filter loop -/

/-- A Python exception class that reaches our modelled control flow. -/
inductive PyErr where
  | timeoutError
  deriving DecidableEq, Repr

/-- The externally supplied loaded-page handle: the page title, whether
the configured wait element ever appears, and the issue table (with its
rows) if it is present — `none` meaning the `WebDriverWait` for
`#issuetable` times out. -/
structure Page where
  title : String
  waitElementPresent : Bool
  issueTable : Option (List Row)
  deriving DecidableEq, Repr

/-- `WebDriverWait(driver, timeout).until(presence_of_element_located)`:
succeeds when the element is present, raises `TimeoutException`
otherwise.  Real-time duration is irrelevant to the control flow and is
not modelled. -/
def webDriverWait (present : Bool) : Except PyErr Unit :=
  if present then .ok () else .error .timeoutError

/-- Lines 47-97 (`navigate_to_url`), for a supplied `wait_element`: the
wait on lines 78-86 sits inside `try/except`, so a timeout is printed
and swallowed and the page title is returned either way. -/
def navigate_to_url (p : Page) : String :=
  match webDriverWait p.waitElementPresent with
  | .ok _ => p.title
  | .error _ => p.title

/-- Lines 157-383 (`extract_jira_issues`): the `WebDriverWait` for
`#issuetable` on lines 182-184 is NOT wrapped in any `try/except`, so
its `TimeoutException` propagates out of the function; otherwise the
row loop produces the DataFrame. -/
def extract_jira_issues (p : Page) : Except PyErr (List Record) := do
  let _ ← webDriverWait p.issueTable.isSome
  match p.issueTable with
  | none => .error .timeoutError
  | some rows => .ok (extractRecords rows)

/-- Lines 662-681 (`format_sheet_name`): lowercase, underscores to
spaces, then title case. -/
def format_sheet_name (name : String) : String :=
  pyTitle (pyReplace (pyLower name) "_" " ")

/-- Python `dict` assignment `d[k] = v`: an existing (equal) key keeps
its insertion position and its original key object and gets the new
value; a new key is appended. -/
def pyDictInsert (k : String) {α : Type} (v : α) : List (String × α) → List (String × α)
  | [] => [(k, v)]
  | (k', v') :: t => if k' = k then (k', v) :: t else (k', v') :: pyDictInsert k v t

/-- The per-filter loop of `main` (lines 732-756) with the accumulated
`dataframes_dict` made explicit: strip the filter prefix, normalize the
sheet name, navigate (its timeout is swallowed), extract (its timeout
propagates and aborts the whole loop — `main` has no `except`, only a
`finally`), and store the DataFrame under the sheet name with plain dict
assignment. -/
def processFiltersAux (filterPattern : String) :
    List (String × Page) → List (String × List Record) →
      Except PyErr (List (String × List Record))
  | [], dict => .ok dict
  | fp :: rest, dict =>
    let sheetName := format_sheet_name (pyReplace fp.1 filterPattern "")
    let _ := navigate_to_url fp.2
    match extract_jira_issues fp.2 with
    | .error e => .error e
    | .ok df => processFiltersAux filterPattern rest (pyDictInsert sheetName df dict)

/-- The per-filter loop started on the empty `dataframes_dict`
(line 727). -/
def processFilters (filterPattern : String) (filters : List (String × Page)) :
    Except PyErr (List (String × List Record)) :=
  processFiltersAux filterPattern filters []

/-! ## The worksheet model (openpyxl slice used by the source)

A sheet as `df.to_excel` leaves it: a header row and rectangular data
rows of cells.  A cell carries its value plus exactly the presentation
attributes the source writes: font boldness, fill color, hyperlink
target, named style and number format.  Column widths are the
`column_dimensions[...].width` mapping, and `auto_filter.ref` is the
populated rectangle `(max_row, max_col)` that `worksheet.dimensions`
denotes. -/

/-- An openpyxl cell value: `empty` is an unset cell (Python `None`),
otherwise a string or a naive datetime — the two value kinds the
DataFrames of this program contain. -/
inductive CellVal where
  | empty
  | s (x : String)
  | d (t : NaiveDT)
  deriving DecidableEq, Repr

/-- Python truthiness of a cell value (`if cell.value:`): `None` and `""`
are falsy; datetimes are always truthy. -/
def truthyCell : CellVal → Bool
  | .empty => false
  | .s x => x != ""
  | .d _ => true

/-- Zero-padded decimal rendering of a field of a datetime. -/
def padNum (w : Nat) (n : Int) : String :=
  let s := toString n.toNat
  ⟨List.replicate (w - s.length) '0' ++ s.data⟩

/-- Python `str()` of a naive datetime:
`YYYY-MM-DD HH:MM:SS[.ffffff]`. -/
def strOfNaive (t : NaiveDT) : String :=
  padNum 4 t.year ++ "-" ++ padNum 2 t.month ++ "-" ++ padNum 2 t.day ++ " " ++
    padNum 2 t.hour ++ ":" ++ padNum 2 t.minute ++ ":" ++ padNum 2 t.second ++
    (if t.micro = 0 then "" else "." ++ padNum 6 t.micro)

/-- Python `str(cell.value)` as `adjust_column_widths` applies it
(line 408/416): an unset cell renders as the four characters `None`. -/
def pyStr : CellVal → String
  | .empty => "None"
  | .s x => x
  | .d t => strOfNaive t

/-- `len(str(cell.value))`. -/
def strLenOfCell (v : CellVal) : Nat := (pyStr v).length

/-- One worksheet cell with the presentation attributes the source
writes. -/
structure Cell where
  value : CellVal
  bold : Bool
  fill : Option String
  hyperlink : Option String
  styleName : Option String
  numberFormat : Option String
  deriving DecidableEq, Repr

/-- The cell openpyxl materializes for a coordinate with no content. -/
def defaultCell : Cell := ⟨.empty, false, none, none, none, none⟩

/-- Indexing a row of cells the way the column loops do: an
out-of-rectangle coordinate is an unset cell. -/
def cellAt (row : List Cell) (j : Nat) : Cell := (row[j]?).getD defaultCell

/-- A worksheet: row 1 (the header), the data rows, the
`column_dimensions` width mapping and the `auto_filter.ref` rectangle. -/
structure Sheet where
  header : List Cell
  rows : List (List Cell)
  colWidths : Nat → ℚ
  autoFilterRef : Option (Nat × Nat)

/-! ## `adjust_column_widths` (lines 386-427) -/

/-- Width of one column, given its header cell value and data cell
values.  Mirrors the loop body: the fold is the running `max_length`
over ALL cells of the column (`for cell in col`, header included,
line 414), the second `max` argument is `adjusted_header_length`
(`header_length * 1.5`, lines 408-411), then `+ 2` padding and the
`max_width = 80` ceiling (line 426). -/
def adjust_column_width (header : CellVal) (data : List CellVal) : ℚ :=
  min ((max (((header :: data).foldl (fun acc v => max acc (strLenOfCell v)) 0 : Nat) : ℚ)
    ((strLenOfCell header : ℚ) * (3 / 2))) + 2) 80

/-- The values of column `j`: header first, then one per data row. -/
def colHeaderVal (header : List Cell) (j : Nat) : CellVal := (cellAt header j).value

/-- The data values of column `j`. -/
def colDataVals (rows : List (List Cell)) (j : Nat) : List CellVal :=
  rows.map (fun r => (cellAt r j).value)

/-- `adjust_column_widths(sheet)`: sets the width of every populated
column (`sheet.columns` spans the header rectangle); other entries of
`column_dimensions` keep their previous value. -/
def adjust_column_widths (header : List Cell) (rows : List (List Cell))
    (old : Nat → ℚ) : Nat → ℚ :=
  fun j =>
    if j < header.length then
      adjust_column_width (colHeaderVal header j) (colDataVals rows j)
    else old j

/-! ## The per-sheet formatting pass of `generate_excel_report`
(lines 529-579) -/

/-- Lines 536-538: bold font and the fixed `DDEBF7` fill on each header
cell. -/
def fmtHeaderCell (c : Cell) : Cell := { c with bold := true, fill := some "DDEBF7" }

/-- Lines 556-562: a data cell of the link column whose value is a
non-empty string becomes a hyperlink to that string with the named
`Hyperlink` style (`if cell.value and isinstance(cell.value, str)`). -/
def linkRuleCell (c : Cell) : Cell :=
  match c.value with
  | .s x =>
    if x = "" then c
    else { c with hyperlink := some x, styleName := some "Hyperlink" }
  | _ => c

/-- Lines 568-573: a truthy cell of the date column gets the fixed
display pattern; the value itself is not written. -/
def dateRuleCell (c : Cell) : Cell :=
  if truthyCell c.value then { c with numberFormat := some "yyyy-mm-dd hh:mm:ss" }
  else c

/-- Apply `f` to the cell at index `j` of a row, as the per-row loops do
(`worksheet[f"{col_letter}{row}"]`). -/
def mapAt (j : Nat) (f : Cell → Cell) : List Cell → List Cell
  | [] => []
  | c :: t =>
    match j with
    | 0 => f c :: t
    | j' + 1 => c :: mapAt j' f t

/-- Lines 544-549: scan the header row once; `if/elif` on each header
value, keeping the LAST matching index of `Issue link` and of `Created`
(0-based here; the source's 1-based index only feeds the column-letter
conversion). -/
def findColsAux : Nat → Option Nat × Option Nat → List CellVal → Option Nat × Option Nat
  | _, acc, [] => acc
  | i, (li, di), v :: t =>
    if v = .s "Issue link" then findColsAux (i + 1) (some i, di) t
    else if v = .s "Created" then findColsAux (i + 1) (li, some i) t
    else findColsAux (i + 1) (li, di) t

/-- The `(link_col_index, date_col_index)` pair after the header scan. -/
def findCols (vals : List CellVal) : Option Nat × Option Nat :=
  findColsAux 0 (none, none) vals

/-- Lines 552-562: the hyperlink conversion, skipped when no header
matched (`if link_col_index:`). -/
def applyLinkRule (li : Option Nat) (rows : List (List Cell)) : List (List Cell) :=
  match li with
  | none => rows
  | some j => rows.map (mapAt j linkRuleCell)

/-- Lines 565-573: the date display format, skipped when no header
matched. -/
def applyDateRule (di : Option Nat) (rows : List (List Cell)) : List (List Cell) :=
  match di with
  | none => rows
  | some j => rows.map (mapAt j dateRuleCell)

/-- The header row after the styling loop of lines 536-538. -/
def formattedHeader (sh : Sheet) : List Cell := sh.header.map fmtHeaderCell

/-- The header scan of lines 544-549 (run, as in the source, on the
already-styled header row — styling does not touch values). -/
def sheetCols (sh : Sheet) : Option Nat × Option Nat :=
  findCols ((sh.header.map fmtHeaderCell).map (·.value))

/-- The data rows after the hyperlink rule (lines 552-562) and then the
date-format rule (lines 565-573). -/
def formattedRows (sh : Sheet) : List (List Cell) :=
  applyDateRule (sheetCols sh).2 (applyLinkRule (sheetCols sh).1 sh.rows)

/-- The spec's `SheetFormatter.format`: the per-sheet body of
`generate_excel_report` (lines 529-579) after `df.to_excel` — header
styling, header scan, hyperlink conversion, date display format, column
widths, and `auto_filter.ref = worksheet.dimensions` (the populated
rectangle: header row plus all data rows, all header columns). -/
def generate_excel_report_sheet (sh : Sheet) : Sheet where
  header := formattedHeader sh
  rows := formattedRows sh
  colWidths := adjust_column_widths (formattedHeader sh) (formattedRows sh) sh.colWidths
  autoFilterRef := some (1 + (formattedRows sh).length, (formattedHeader sh).length)

/-! ## Helper lemmas -/

theorem assembleRow_isSome (row : Row) : (assembleRow row).isSome = keyTruthy row := by
  unfold assembleRow keyTruthy
  cases row.dataIssuekey with
  | none => rfl
  | some s =>
    by_cases h : s = "" <;> simp [h]

theorem extractRecords_aux (rows : List Row) :
    ∀ acc : List Record,
      rows.foldl
        (fun acc row =>
          match assembleRow row with
          | some r => acc ++ [r]
          | none => acc)
        acc = acc ++ rows.filterMap assembleRow := by
  induction rows with
  | nil => intro acc; simp
  | cons row t ih =>
    intro acc
    cases h : assembleRow row <;>
      simp [List.foldl_cons, List.filterMap_cons, h, ih, List.append_assoc]

theorem extractRecords_eq_filterMap (rows : List Row) :
    extractRecords rows = rows.filterMap assembleRow := by
  simpa using extractRecords_aux rows []

theorem length_filterMap_assembleRow (rows : List Row) :
    (rows.filterMap assembleRow).length = rows.countP keyTruthy := by
  induction rows with
  | nil => rfl
  | cons row t ih =>
    rw [List.filterMap_cons, List.countP_cons]
    have h := assembleRow_isSome row
    cases hr : assembleRow row with
    | none =>
      rw [hr] at h
      simp [← h, ih]
    | some r =>
      rw [hr] at h
      simp [← h, ih]

/-! ## Claim theorems -/

/-- C1: a row contributes a Record iff its `data-issuekey` attribute is
present and non-empty; rows without a truthy key are skipped (the
assembler yields `null`); the dataset is exactly the in-order filtered
map of the assembler over the source rows, so its length is the count of
rows carrying a (non-empty) key and retained records keep source row
order. -/
theorem row_contribution_iff (rows : List Row) :
    extractRecords rows = rows.filterMap assembleRow ∧
    (extractRecords rows).length = rows.countP keyTruthy ∧
    ∀ row : Row, assembleRow row = none ↔ keyTruthy row = false := by
  refine ⟨extractRecords_eq_filterMap rows, ?_, ?_⟩
  · rw [extractRecords_eq_filterMap rows]
    exact length_filterMap_assembleRow rows
  · intro row
    have h := assembleRow_isSome row
    constructor
    · intro hnone; rw [hnone] at h; exact h.symm
    · intro hfalse
      cases hr : assembleRow row with
      | none => rfl
      | some r => rw [hr, hfalse] at h; simp at h

/-- A demo row whose key is present and non-empty and whose other cells
are all absent. -/
def rowKeyOnly : Row := ⟨some "PROJ-1", none, none, none, none, none, none, none, none, none⟩

/-- A demo row with no `data-issuekey` attribute. -/
def rowNoKey : Row := ⟨none, none, none, none, none, none, none, none, none, none⟩

/-- A demo row whose `data-issuekey` attribute is the empty string. -/
def rowEmptyKey : Row := ⟨some "", none, none, none, none, none, none, none, none, none⟩

/-- C1 witness: on a three-row table where only the first row carries a
non-empty key, the dataset has exactly one record, and the assembler
returns `null` exactly on the two key-less rows. -/
theorem row_contribution_iff_witness :
    (extractRecords [rowKeyOnly, rowNoKey, rowEmptyKey]).length = 1 ∧
    assembleRow rowNoKey = none ∧ assembleRow rowEmptyKey = none := by
  refine ⟨?_, ?_, ?_⟩
  · exact ((row_contribution_iff [rowKeyOnly, rowNoKey, rowEmptyKey]).2.1).trans (by decide)
  · exact ((row_contribution_iff []).2.2 rowNoKey).mpr (by decide)
  · exact ((row_contribution_iff []).2.2 rowEmptyKey).mpr (by decide)

/-- C3: for a row whose created cell has a `time` element — a `datetime`
attribute holding a valid ISO-8601 timestamp (any offset) is stored as
that timestamp converted to UTC with the timezone tag stripped (whenever
the converted instant is representable as a Python datetime at all); an
unparsable attribute value falls back to the original raw attribute
string; an absent attribute leaves the initial empty-string fallback.
The extractor is a total function: no exception escapes. -/
theorem created_date_conversion (ctd : CreatedTd) (te : TimeElem)
    (hte : ctd.time = some te) :
    (∀ s d, te.datetimeAttr = some s → isoparse s = some d →
        utcInRange (awareToUtcNaive d) = true →
        extract_created (some ctd) = .vdt (awareToUtcNaive d)) ∧
    (∀ s, te.datetimeAttr = some s → isoparse s = none →
        extract_created (some ctd) = .vs s) ∧
    (te.datetimeAttr = none → extract_created (some ctd) = .vs "") := by
  refine ⟨?_, ?_, ?_⟩
  · intro s d hs hp hr
    by_cases hes : s = ""
    · subst hes
      rw [show isoparse "" = (none : Option AwareDT) from rfl] at hp
      exact Option.noConfusion hp
    · simp [extract_created, hte, hs, hes, hp, hr]
  · intro s hs hp
    by_cases hes : s = ""
    · simp [extract_created, hte, hs, hes]
    · simp [extract_created, hte, hs, hes, hp]
  · intro hs
    simp [extract_created, hte, hs]

/-- C3 witness: a timestamp with a non-UTC offset (+02:00) is stored as
the naive UTC instant two hours earlier; an unparsable attribute is
stored raw; an absent attribute is stored as the empty string. -/
theorem created_date_conversion_witness :
    extract_created (some ⟨some ⟨some "2024-03-05T10:30:00+02:00"⟩⟩) =
      .vdt ⟨2024, 3, 5, 8, 30, 0, 0⟩ ∧
    isoparse "2024-03-05T10:30:00+02:00" = some ⟨2024, 3, 5, 10, 30, 0, 0, some 120⟩ ∧
    extract_created (some ⟨some ⟨some "05/Mar/24 10:30 AM"⟩⟩) = .vs "05/Mar/24 10:30 AM" ∧
    extract_created (some ⟨some ⟨none⟩⟩) = .vs "" := by
  refine ⟨?_, by decide, ?_, ?_⟩
  · have h := (created_date_conversion ⟨some ⟨some "2024-03-05T10:30:00+02:00"⟩⟩
      ⟨some "2024-03-05T10:30:00+02:00"⟩ rfl).1
      "2024-03-05T10:30:00+02:00" ⟨2024, 3, 5, 10, 30, 0, 0, some 120⟩ rfl (by decide) (by decide)
    exact h.trans (by decide)
  · exact (created_date_conversion ⟨some ⟨some "05/Mar/24 10:30 AM"⟩⟩
      ⟨some "05/Mar/24 10:30 AM"⟩ rfl).2.1 "05/Mar/24 10:30 AM" rfl (by decide)
  · exact (created_date_conversion ⟨some ⟨none⟩⟩ ⟨none⟩ rfl).2.2 rfl

/-- C4: the assignee extraction tiers in fixed order — the `em` element's
text when that element exists (even with empty text), else the
`a.user-hover` element's text when that exists, else the cell's own
text; in particular a cell holding both an `em` marker and a user link
yields the marker's text, never the link's. -/
theorem assignee_fallback_tiers (td : AssigneeTd) :
    (∀ e, td.em = some e → extract_assignee (some td) = pyStrip e) ∧
    (td.em = none → ∀ u, td.userHover = some u → extract_assignee (some td) = pyStrip u) ∧
    (td.em = none → td.userHover = none → extract_assignee (some td) = pyStrip td.text) ∧
    (∀ e u, td.em = some e → td.userHover = some u → extract_assignee (some td) = pyStrip e) := by
  refine ⟨?_, ?_, ?_, ?_⟩
  · intro e he; simp [extract_assignee, he]
  · intro he u hu; simp [extract_assignee, he, hu]
  · intro he hu; simp [extract_assignee, he, hu]
  · intro e u he hu; simp [extract_assignee, he]

/-- C4 witness: with both an `em` marker (`Unassigned`) and a user link
(`Alice`) present, tier 1 wins; with only the link present, tier 2 is
used; an empty-text `em` still wins over a present link. -/
theorem assignee_fallback_tiers_witness :
    extract_assignee (some ⟨some "Unassigned", some "Alice", "cell text"⟩) = "Unassigned" ∧
    extract_assignee (some ⟨none, some "Alice", "cell text"⟩) = "Alice" ∧
    extract_assignee (some ⟨some "", some "Alice", "cell text"⟩) = "" := by
  refine ⟨?_, ?_, ?_⟩
  · exact ((assignee_fallback_tiers ⟨some "Unassigned", some "Alice", "cell text"⟩).2.2.2
      "Unassigned" "Alice" rfl rfl).trans (by decide)
  · exact ((assignee_fallback_tiers ⟨none, some "Alice", "cell text"⟩).2.1
      rfl "Alice" rfl).trans (by decide)
  · exact ((assignee_fallback_tiers ⟨some "", some "Alice", "cell text"⟩).1
      "" rfl).trans (by decide)

/-- C10: the created-date value of any extraction is never a
timezone-aware datetime: it is a naive datetime (tzinfo stripped), a raw
attribute string, or the empty string — so one Created column can mix
naive datetimes and plain strings. -/
theorem created_never_aware (td? : Option CreatedTd) :
    (extract_created td?).isAware = false ∧
    (extract_created td? = .vs "" ∨ (∃ d, extract_created td? = .vdt d) ∨
      ∃ ctd te s, td? = some ctd ∧ ctd.time = some te ∧ te.datetimeAttr = some s ∧
        extract_created td? = .vs s) := by
  cases td? with
  | none => exact ⟨rfl, .inl rfl⟩
  | some ctd =>
    cases hte : ctd.time with
    | none => exact ⟨by simp [extract_created, hte, FVal.isAware], .inl (by simp [extract_created, hte])⟩
    | some te =>
      cases hs : te.datetimeAttr with
      | none => exact ⟨by simp [extract_created, hte, hs, FVal.isAware], .inl (by simp [extract_created, hte, hs])⟩
      | some s =>
        by_cases hes : s = ""
        · exact ⟨by simp [extract_created, hte, hs, hes, FVal.isAware],
            .inl (by simp [extract_created, hte, hs, hes])⟩
        · cases hp : isoparse s with
          | none =>
            refine ⟨by simp [extract_created, hte, hs, hes, hp, FVal.isAware], ?_⟩
            exact .inr (.inr ⟨ctd, te, s, rfl, hte, hs, by simp [extract_created, hte, hs, hes, hp]⟩)
          | some d =>
            by_cases hr : utcInRange (awareToUtcNaive d) = true
            · refine ⟨by simp [extract_created, hte, hs, hes, hp, hr, FVal.isAware], ?_⟩
              exact .inr (.inl ⟨awareToUtcNaive d, by simp [extract_created, hte, hs, hes, hp, hr]⟩)
            · refine ⟨by simp [extract_created, hte, hs, hes, hp, hr, FVal.isAware], ?_⟩
              exact .inr (.inr ⟨ctd, te, s, rfl, hte, hs, by simp [extract_created, hte, hs, hes, hp, hr]⟩)

/-- A row whose key cell holds an `a.issue-link` anchor that carries no
`href` attribute. -/
def rowLinkNoHref : Row :=
  ⟨some "PROJ-2", some ⟨some ⟨none⟩⟩, none, none, none, none, none, none, none, none⟩

/-- C2 counterexample: on a row whose `a.issue-link` anchor has no
`href` attribute, the per-field failure mode "attribute absent" does NOT
degrade the Link field to the empty string — `get_attribute("href")`
returns Python `None` and line 218 stores it unchanged (no exception is
raised, so the `except` that would leave `""` never runs).  The row is
still assembled, with `None` in its link field. -/
theorem link_absent_href_counterexample :
    assembleRow rowLinkNoHref = some (mkRecord "PROJ-2" rowLinkNoHref) ∧
    (mkRecord "PROJ-2" rowLinkNoHref).issueLink = FVal.vnone ∧
    FVal.vnone ≠ FVal.vs "" := by
  exact ⟨rfl, rfl, by decide⟩

theorem extract_issue_link_shape (td? : Option IssuekeyTd) :
    (extract_issue_link td? = FVal.vnone ∨ ∃ s, extract_issue_link td? = FVal.vs s) ∧
    (extract_issue_link td? = FVal.vnone →
      ∃ a, td? = some a ∧ a.issueLink = some ⟨none⟩) := by
  cases td? with
  | none => exact ⟨.inr ⟨"", rfl⟩, fun hv => absurd hv (by decide)⟩
  | some td =>
    cases hil : td.issueLink with
    | none =>
      refine ⟨.inr ⟨"", ?_⟩, fun hv => ?_⟩
      · simp [extract_issue_link, hil]
      · simp [extract_issue_link, hil] at hv
    | some a =>
      cases hh : a.href with
      | none =>
        refine ⟨.inl ?_, fun _ => ⟨td, rfl, ?_⟩⟩
        · simp [extract_issue_link, hil, hh]
        · rw [hil]
          cases a with
          | mk href => cases hh; rfl
      | some u =>
        refine ⟨.inr ⟨u, ?_⟩, fun hv => ?_⟩
        · simp [extract_issue_link, hil, hh]
        · simp [extract_issue_link, hil, hh] at hv

/-- C2 (amended): every per-field extraction failure is caught inside
the field's extractor and degrades to the empty string (or the
CreatedDate fallback), with one exception — the Link field of a row
whose anchor exists but has no `href` attribute, which degrades to the
null value instead; no exception propagates (every extractor is a total
function of its own cell alone), and a failure in one field neither
drops the row (assembly is decided by the key attribute alone) nor
alters the values extracted for the other fields. -/
theorem field_failures_contained (row : Row) (rec : Record)
    (h : assembleRow row = some rec) :
    (rec.issueType = extract_issue_type row.issuetypeTd ∧
     rec.issueLink = extract_issue_link row.issuekeyTd ∧
     rec.summary = extract_summary row.summaryTd ∧
     rec.status = extract_status row.statusTd ∧
     rec.priority = extract_priority row.priorityTd ∧
     rec.customerObjectId = extract_td_text row.customfield14400Td ∧
     rec.assignee = extract_assignee row.assigneeTd ∧
     rec.created = extract_created row.createdTd ∧
     rec.classification = extract_td_text row.customfield15400Td) ∧
    ((row.issuetypeTd = none → rec.issueType = "") ∧
     (row.issuekeyTd = none → rec.issueLink = .vs "") ∧
     (row.summaryTd = none → rec.summary = "") ∧
     (row.statusTd = none → rec.status = "") ∧
     (row.priorityTd = none → rec.priority = "") ∧
     (row.customfield14400Td = none → rec.customerObjectId = "") ∧
     (row.assigneeTd = none → rec.assignee = "") ∧
     (row.createdTd = none → rec.created = .vs "") ∧
     (row.customfield15400Td = none → rec.classification = "")) ∧
    (rec.issueLink = FVal.vnone ∨ ∃ s, rec.issueLink = FVal.vs s) ∧
    (rec.issueLink = FVal.vnone →
      ∃ a, row.issuekeyTd = some a ∧ a.issueLink = some ⟨none⟩) ∧
    (∀ row' : Row, row'.dataIssuekey = row.dataIssuekey →
      (assembleRow row').isSome = (assembleRow row).isSome) := by
  obtain ⟨k, hkne, hrec⟩ :
      ∃ k, k ≠ "" ∧ rec = mkRecord k row := by
    unfold assembleRow at h
    cases hke : row.dataIssuekey with
    | none => rw [hke] at h; exact Option.noConfusion h
    | some k =>
      rw [hke] at h
      have h' : (if k = "" then none else some (mkRecord k row)) = some rec := h
      by_cases hne : k = ""
      · rw [if_pos hne] at h'; exact Option.noConfusion h'
      · rw [if_neg hne] at h'
        injection h' with h''
        exact ⟨k, hne, h''.symm⟩
  subst hrec
  refine ⟨⟨rfl, rfl, rfl, rfl, rfl, rfl, rfl, rfl, rfl⟩, ?_, ?_, ?_, ?_⟩
  · refine ⟨?_, ?_, ?_, ?_, ?_, ?_, ?_, ?_, ?_⟩
    · intro hn; show extract_issue_type row.issuetypeTd = ""; rw [hn]; rfl
    · intro hn; show extract_issue_link row.issuekeyTd = .vs ""; rw [hn]; rfl
    · intro hn; show extract_summary row.summaryTd = ""; rw [hn]; rfl
    · intro hn; show extract_status row.statusTd = ""; rw [hn]; rfl
    · intro hn; show extract_priority row.priorityTd = ""; rw [hn]; rfl
    · intro hn; show extract_td_text row.customfield14400Td = ""; rw [hn]; rfl
    · intro hn; show extract_assignee row.assigneeTd = ""; rw [hn]; rfl
    · intro hn; show extract_created row.createdTd = .vs ""; rw [hn]; rfl
    · intro hn; show extract_td_text row.customfield15400Td = ""; rw [hn]; rfl
  · exact (extract_issue_link_shape row.issuekeyTd).1
  · exact (extract_issue_link_shape row.issuekeyTd).2
  · intro row' hkey
    rw [assembleRow_isSome, assembleRow_isSome]
    unfold keyTruthy
    rw [hkey]

/-- A row mixing failure modes: no `issuetype` cell, an anchor without
`href`, a summary with surrounding whitespace, a valid key. -/
def rowMixed : Row :=
  ⟨some "PROJ-3", some ⟨some ⟨none⟩⟩, none, some ⟨some "  Fix login  "⟩,
    none, none, none, none, none, none⟩

/-- C2 witness: on `rowMixed` the row is kept, the absent issue-type
cell degrades to `""`, the summary is still extracted and trimmed, the
href-less anchor yields the null link value, and removing every non-key
cell does not change whether the row is assembled. -/
theorem field_failures_contained_witness :
    assembleRow rowMixed = some (mkRecord "PROJ-3" rowMixed) ∧
    (mkRecord "PROJ-3" rowMixed).issueType = "" ∧
    (mkRecord "PROJ-3" rowMixed).summary = "Fix login" ∧
    (mkRecord "PROJ-3" rowMixed).issueLink = FVal.vnone ∧
    (assembleRow ⟨some "PROJ-3", none, none, none, none, none, none, none, none, none⟩).isSome
      = (assembleRow rowMixed).isSome := by
  have h : assembleRow rowMixed = some (mkRecord "PROJ-3" rowMixed) := rfl
  have hc := field_failures_contained rowMixed (mkRecord "PROJ-3" rowMixed) h
  refine ⟨h, hc.2.1.1 rfl, ?_, ?_, hc.2.2.2.2 _ rfl⟩
  · exact (hc.1.2.2.1).trans (by decide)
  · exact (hc.1.2.1).trans (by decide)

/-- A one-row table for the first colliding query. -/
def rowA : Row := ⟨some "A-1", none, none, none, none, none, none, none, none, none⟩

/-- A one-row table for the second colliding query. -/
def rowB : Row := ⟨some "B-1", none, none, none, none, none, none, none, none, none⟩

/-- The loaded page of the first colliding query. -/
def pageA : Page := ⟨"JIRA", true, some [rowA]⟩

/-- The loaded page of the second colliding query. -/
def pageB : Page := ⟨"JIRA", true, some [rowB]⟩

/-- C5 counterexample: the filter names `JIRA_FILTER_OPEN` and
`JIRA_FILTER_open` normalize to the same sheet name `Open`; the loop
finishes without any error and the resulting dict holds a single entry
whose dataset is the SECOND query's — the first dataset is silently
overwritten, not detected, not surfaced. -/
theorem duplicate_sheet_name_counterexample :
    format_sheet_name (pyReplace "JIRA_FILTER_OPEN" "JIRA_FILTER_" "") = "Open" ∧
    format_sheet_name (pyReplace "JIRA_FILTER_open" "JIRA_FILTER_" "") = "Open" ∧
    processFilters "JIRA_FILTER_"
        [("JIRA_FILTER_OPEN", pageA), ("JIRA_FILTER_open", pageB)] =
      .ok [("Open", extractRecords [rowB])] ∧
    extractRecords [rowA] ≠ extractRecords [rowB] := by
  exact ⟨rfl, rfl, rfl, by decide⟩

/-- C5 (amended): two queries whose names normalize to the same sheet
name are silently collapsed — the loop completes without error and the
later dataset overwrites the earlier one under the shared (first-come)
dict entry; no detection or reporting happens. -/
theorem duplicate_sheet_name_overwrites (pattern n1 n2 : String) (p1 p2 : Page)
    (r1 r2 : List Row)
    (h1 : p1.issueTable = some r1) (h2 : p2.issueTable = some r2)
    (hcol : format_sheet_name (pyReplace n1 pattern "") =
      format_sheet_name (pyReplace n2 pattern "")) :
    processFilters pattern [(n1, p1), (n2, p2)] =
      .ok [(format_sheet_name (pyReplace n1 pattern ""), extractRecords r2)] := by
  have e1 : extract_jira_issues p1 = .ok (extractRecords r1) := by
    unfold extract_jira_issues webDriverWait
    rw [h1]
    rfl
  have e2 : extract_jira_issues p2 = .ok (extractRecords r2) := by
    unfold extract_jira_issues webDriverWait
    rw [h2]
    rfl
  simp only [processFilters, processFiltersAux, e1, e2, pyDictInsert]
  simp [← hcol]

/-- C5 witness: the amended overwrite behaviour at the concrete
colliding pair. -/
theorem duplicate_sheet_name_overwrites_witness :
    processFilters "JIRA_FILTER_"
        [("JIRA_FILTER_OPEN", pageA), ("JIRA_FILTER_open", pageB)] =
      .ok [(format_sheet_name (pyReplace "JIRA_FILTER_OPEN" "JIRA_FILTER_" ""),
        extractRecords [rowB])] :=
  duplicate_sheet_name_overwrites "JIRA_FILTER_" "JIRA_FILTER_OPEN" "JIRA_FILTER_open"
    pageA pageB [rowA] [rowB] rfl rfl (by decide)

/-- A loaded page on which the `#issuetable` element never appears. -/
def pageNoTable : Page := ⟨"JIRA Dashboard", true, none⟩

/-- C6 counterexample: when the wait for the issue table times out, the
`TimeoutException` of the unguarded `WebDriverWait` in
`extract_jira_issues` (line 182) propagates: the query yields an error,
and the whole per-filter loop — the run — aborts with it instead of
proceeding with an empty dataset. -/
theorem table_wait_timeout_counterexample :
    extract_jira_issues pageNoTable = .error .timeoutError ∧
    processFilters "JIRA_FILTER_" [("JIRA_FILTER_ALL", pageNoTable)] =
      .error .timeoutError := by
  exact ⟨rfl, rfl⟩

/-- C6 (amended): the two bounded waits behave differently.  The wait
for the configured precondition element inside `navigate_to_url`
(lines 78-86) is wrapped in `try/except`: its timeout is logged,
swallowed, not retried, and the page title is returned either way.  The
wait for the `#issuetable` element inside `extract_jira_issues`
(lines 181-184) is NOT guarded: its timeout raises, aborting the query
and the whole run (whatever datasets were already collected), rather
than yielding an empty dataset. -/
theorem wait_timeout_behavior (p : Page) :
    navigate_to_url p = p.title ∧
    (p.issueTable = none → extract_jira_issues p = .error .timeoutError) ∧
    (∀ rows, p.issueTable = some rows →
      extract_jira_issues p = .ok (extractRecords rows)) ∧
    (∀ pattern name dict, p.issueTable = none →
      processFiltersAux pattern [(name, p)] dict = .error .timeoutError) := by
  refine ⟨?_, ?_, ?_, ?_⟩
  · cases hw : p.waitElementPresent <;> simp [navigate_to_url, webDriverWait, hw]
  · intro hnone
    unfold extract_jira_issues webDriverWait
    rw [hnone]
    rfl
  · intro rows hrows
    unfold extract_jira_issues webDriverWait
    rw [hrows]
    rfl
  · intro pattern name dict hnone
    have he : extract_jira_issues p = .error .timeoutError := by
      unfold extract_jira_issues webDriverWait
      rw [hnone]
      rfl
    unfold processFiltersAux
    rw [he]

/-- C6 witness: a page whose wait element never appears still yields its
title from `navigate_to_url` (timeout swallowed); a page without the
issue table makes extraction — and a loop that already collected a
dataset — abort with the timeout error. -/
theorem wait_timeout_behavior_witness :
    navigate_to_url ⟨"Dash", false, some []⟩ = "Dash" ∧
    extract_jira_issues pageNoTable = .error .timeoutError ∧
    processFiltersAux "JIRA_FILTER_" [("JIRA_FILTER_B", pageNoTable)]
        [("Open", extractRecords [rowA])] = .error .timeoutError := by
  refine ⟨(wait_timeout_behavior ⟨"Dash", false, some []⟩).1, ?_, ?_⟩
  · exact (wait_timeout_behavior pageNoTable).2.1 rfl
  · exact (wait_timeout_behavior pageNoTable).2.2.2 "JIRA_FILTER_" "JIRA_FILTER_B"
      [("Open", extractRecords [rowA])] rfl

theorem foldl_maxf_init {α : Type} (g : α → Nat) (l : List α) :
    ∀ a : Nat, l.foldl (fun acc v => max acc (g v)) a =
      max a (l.foldl (fun acc v => max acc (g v)) 0) := by
  induction l with
  | nil => intro a; simp
  | cons x t ih =>
    intro a
    rw [List.foldl_cons, List.foldl_cons, ih (max a (g x)), ih (max 0 (g x)),
      max_eq_right (Nat.zero_le (g x)), max_assoc]

set_option maxRecDepth 8000 in
/-- C7: the computed column width is exactly
`min(max(longest rendered value length, 1.5 × header length) + 2, 80)`
in character units (the source's running maximum also scans the header
cell at weight 1, which the 1.5-weighted term absorbs), it never exceeds
80, and a column with a 500-character value under a 6-character header
gets width exactly 80. -/
theorem column_width_formula (header : CellVal) (data : List CellVal) :
    adjust_column_width header data =
      min (max ((data.foldl (fun acc v => max acc (strLenOfCell v)) 0 : Nat) : ℚ)
        ((strLenOfCell header : ℚ) * (3 / 2)) + 2) 80 ∧
    adjust_column_width header data ≤ 80 ∧
    adjust_column_width (.s "Status") [.s ⟨List.replicate 500 'a'⟩] = 80 := by
  refine ⟨?_, ?_, ?_⟩
  · unfold adjust_column_width
    rw [List.foldl_cons, foldl_maxf_init, max_eq_right (Nat.zero_le (strLenOfCell header)),
      Nat.cast_max]
    have hH : ((strLenOfCell header : ℚ)) ≤ (strLenOfCell header : ℚ) * (3 / 2) := by
      have h0 : (0 : ℚ) ≤ (strLenOfCell header : ℚ) := Nat.cast_nonneg _
      linarith
    rw [max_comm ((strLenOfCell header : ℚ)), max_assoc, max_eq_right hH]
  · exact min_le_right _ _
  · unfold adjust_column_width
    rw [show ((CellVal.s "Status" :: [CellVal.s ⟨List.replicate 500 'a'⟩]).foldl
        (fun acc v => max acc (strLenOfCell v)) 0) = 500 from by decide]
    rw [show strLenOfCell (CellVal.s "Status") = 6 from by decide]
    rw [show max (((500 : ℕ) : ℚ)) (((6 : ℕ) : ℚ) * (3 / 2)) = ((500 : ℕ) : ℚ) from
      max_eq_left (by push_cast; norm_num)]
    rw [show min ((((500 : ℕ) : ℚ)) + 2) (80 : ℚ) = 80 from
      min_eq_right (by push_cast; norm_num)]

/-! ## Cell- and row-level lemmas for the formatting pass -/

theorem fmtHeaderCell_idem (c : Cell) : fmtHeaderCell (fmtHeaderCell c) = fmtHeaderCell c := rfl

theorem fmtHeaderCell_value (c : Cell) : (fmtHeaderCell c).value = c.value := rfl

theorem linkRuleCell_value (c : Cell) : (linkRuleCell c).value = c.value := by
  cases c with
  | mk v b f h st nf =>
    cases v with
    | empty => rfl
    | s x => by_cases hx : x = "" <;> simp [linkRuleCell, hx]
    | d t => rfl

theorem dateRuleCell_value (c : Cell) : (dateRuleCell c).value = c.value := by
  unfold dateRuleCell
  split <;> rfl

theorem dateRuleCell_hyperlink (c : Cell) : (dateRuleCell c).hyperlink = c.hyperlink := by
  unfold dateRuleCell
  split <;> rfl

theorem dateRuleCell_styleName (c : Cell) : (dateRuleCell c).styleName = c.styleName := by
  unfold dateRuleCell
  split <;> rfl

theorem linkRuleCell_idem (c : Cell) : linkRuleCell (linkRuleCell c) = linkRuleCell c := by
  cases c with
  | mk v b f h st nf =>
    cases v with
    | empty => rfl
    | s x => by_cases hx : x = "" <;> simp [linkRuleCell, hx]
    | d t => rfl

theorem dateRuleCell_idem (c : Cell) : dateRuleCell (dateRuleCell c) = dateRuleCell c := by
  cases c with
  | mk v b f h st nf =>
    by_cases hv : truthyCell v = true <;> simp [dateRuleCell, hv]

theorem link_date_comm (c : Cell) :
    linkRuleCell (dateRuleCell c) = dateRuleCell (linkRuleCell c) := by
  cases c with
  | mk v b f h st nf =>
    cases v with
    | empty => rfl
    | s x => by_cases hx : x = "" <;> simp [linkRuleCell, dateRuleCell, truthyCell, hx]
    | d t => simp [linkRuleCell, dateRuleCell, truthyCell]

theorem mapAt_idem (f : Cell → Cell) (hf : ∀ c, f (f c) = f c) :
    ∀ (j : Nat) (l : List Cell), mapAt j f (mapAt j f l) = mapAt j f l := by
  intro j l
  induction l generalizing j with
  | nil => simp [mapAt]
  | cons c t ih =>
    cases j with
    | zero => simp [mapAt, hf]
    | succ j' => simp [mapAt, ih j']

theorem mapAt_comm (f g : Cell → Cell) (hfg : ∀ c, f (g c) = g (f c)) :
    ∀ (j k : Nat) (l : List Cell), mapAt j f (mapAt k g l) = mapAt k g (mapAt j f l) := by
  intro j k l
  induction l generalizing j k with
  | nil => simp [mapAt]
  | cons c t ih =>
    cases j with
    | zero =>
      cases k with
      | zero => simp [mapAt, hfg]
      | succ k' => simp [mapAt]
    | succ j' =>
      cases k with
      | zero => simp [mapAt]
      | succ k' => simp [mapAt, ih j' k']

theorem mapAt_map_proj {β : Type} (g : Cell → Cell) (p : Cell → β)
    (hp : ∀ c, p (g c) = p c) :
    ∀ (j : Nat) (l : List Cell), (mapAt j g l).map p = l.map p := by
  intro j l
  induction l generalizing j with
  | nil => simp [mapAt]
  | cons c t ih =>
    cases j with
    | zero => simp [mapAt, hp]
    | succ j' => simp [mapAt, ih j']

theorem mapAt_getElem_eq (f : Cell → Cell) :
    ∀ (j : Nat) (l : List Cell), (mapAt j f l)[j]? = (l[j]?).map f := by
  intro j l
  induction l generalizing j with
  | nil => simp [mapAt]
  | cons c t ih =>
    cases j with
    | zero => simp [mapAt]
    | succ j' => simp [mapAt, ih j']

theorem mapAt_getElem_ne (f : Cell → Cell) (k j : Nat) (hne : k ≠ j) :
    ∀ l : List Cell, (mapAt k f l)[j]? = l[j]? := by
  intro l
  induction l generalizing k j with
  | nil => simp [mapAt]
  | cons c t ih =>
    cases k with
    | zero =>
      cases j with
      | zero => exact absurd rfl hne
      | succ j' => simp [mapAt]
    | succ k' =>
      cases j with
      | zero => simp [mapAt]
      | succ j' => simpa [mapAt] using ih k' j' (fun he => hne (by rw [he]))

theorem applyRules_idem (li di : Option Nat) (rows : List (List Cell)) :
    applyDateRule di (applyLinkRule li (applyDateRule di (applyLinkRule li rows))) =
      applyDateRule di (applyLinkRule li rows) := by
  cases li with
  | none =>
    cases di with
    | none => rfl
    | some k =>
      show (rows.map (mapAt k dateRuleCell)).map (mapAt k dateRuleCell) =
        rows.map (mapAt k dateRuleCell)
      rw [List.map_map]
      have hDD : (mapAt k dateRuleCell ∘ mapAt k dateRuleCell) = mapAt k dateRuleCell :=
        funext fun l => mapAt_idem dateRuleCell dateRuleCell_idem k l
      rw [hDD]
  | some j =>
    cases di with
    | none =>
      show (rows.map (mapAt j linkRuleCell)).map (mapAt j linkRuleCell) =
        rows.map (mapAt j linkRuleCell)
      rw [List.map_map]
      have hLL2 : (mapAt j linkRuleCell ∘ mapAt j linkRuleCell) = mapAt j linkRuleCell :=
        funext fun l => mapAt_idem linkRuleCell linkRuleCell_idem j l
      rw [hLL2]
    | some k =>
      show (((rows.map (mapAt j linkRuleCell)).map (mapAt k dateRuleCell)).map
          (mapAt j linkRuleCell)).map (mapAt k dateRuleCell) =
        (rows.map (mapAt j linkRuleCell)).map (mapAt k dateRuleCell)
      rw [List.map_map, List.map_map, List.map_map, List.map_map]
      have hrow : (((mapAt k dateRuleCell ∘ mapAt j linkRuleCell) ∘ mapAt k dateRuleCell) ∘
          mapAt j linkRuleCell) = (mapAt k dateRuleCell ∘ mapAt j linkRuleCell) := by
        funext r
        show mapAt k dateRuleCell (mapAt j linkRuleCell (mapAt k dateRuleCell
          (mapAt j linkRuleCell r))) = mapAt k dateRuleCell (mapAt j linkRuleCell r)
        rw [mapAt_comm linkRuleCell dateRuleCell link_date_comm j k,
          mapAt_idem linkRuleCell linkRuleCell_idem,
          mapAt_idem dateRuleCell dateRuleCell_idem]
      rw [hrow]

theorem applyLinkRule_values (li : Option Nat) (rows : List (List Cell)) :
    (applyLinkRule li rows).map (fun r => r.map (·.value)) =
      rows.map (fun r => r.map (·.value)) := by
  cases li with
  | none => rfl
  | some j =>
    show (rows.map (mapAt j linkRuleCell)).map (fun r => r.map (·.value)) = _
    rw [List.map_map]
    have h : ((fun r : List Cell => r.map (·.value)) ∘ mapAt j linkRuleCell) =
        fun r : List Cell => r.map (·.value) :=
      funext fun r => mapAt_map_proj linkRuleCell (·.value) linkRuleCell_value j r
    rw [h]

theorem applyDateRule_values (di : Option Nat) (rows : List (List Cell)) :
    (applyDateRule di rows).map (fun r => r.map (·.value)) =
      rows.map (fun r => r.map (·.value)) := by
  cases di with
  | none => rfl
  | some k =>
    show (rows.map (mapAt k dateRuleCell)).map (fun r => r.map (·.value)) = _
    rw [List.map_map]
    have h : ((fun r : List Cell => r.map (·.value)) ∘ mapAt k dateRuleCell) =
        fun r : List Cell => r.map (·.value) :=
      funext fun r => mapAt_map_proj dateRuleCell (·.value) dateRuleCell_value k r
    rw [h]

theorem applyDateRule_hyperlinks (di : Option Nat) (rows : List (List Cell)) :
    (applyDateRule di rows).map (fun r => r.map (·.hyperlink)) =
      rows.map (fun r => r.map (·.hyperlink)) := by
  cases di with
  | none => rfl
  | some k =>
    show (rows.map (mapAt k dateRuleCell)).map (fun r => r.map (·.hyperlink)) = _
    rw [List.map_map]
    have h : ((fun r : List Cell => r.map (·.hyperlink)) ∘ mapAt k dateRuleCell) =
        fun r : List Cell => r.map (·.hyperlink) :=
      funext fun r => mapAt_map_proj dateRuleCell (·.hyperlink) dateRuleCell_hyperlink k r
    rw [h]

theorem applyDateRule_styleNames (di : Option Nat) (rows : List (List Cell)) :
    (applyDateRule di rows).map (fun r => r.map (·.styleName)) =
      rows.map (fun r => r.map (·.styleName)) := by
  cases di with
  | none => rfl
  | some k =>
    show (rows.map (mapAt k dateRuleCell)).map (fun r => r.map (·.styleName)) = _
    rw [List.map_map]
    have h : ((fun r : List Cell => r.map (·.styleName)) ∘ mapAt k dateRuleCell) =
        fun r : List Cell => r.map (·.styleName) :=
      funext fun r => mapAt_map_proj dateRuleCell (·.styleName) dateRuleCell_styleName k r
    rw [h]

theorem formattedHeader_values (l : List Cell) :
    (l.map fmtHeaderCell).map (·.value) = l.map (·.value) := by
  rw [List.map_map]
  exact congrFun (congrArg List.map (funext fmtHeaderCell_value)) l

theorem formattedHeader_generate (sh : Sheet) :
    formattedHeader (generate_excel_report_sheet sh) = formattedHeader sh := by
  show (sh.header.map fmtHeaderCell).map fmtHeaderCell = sh.header.map fmtHeaderCell
  rw [List.map_map]
  have h : (fmtHeaderCell ∘ fmtHeaderCell) = fmtHeaderCell := funext fmtHeaderCell_idem
  rw [h]

theorem sheetCols_generate (sh : Sheet) :
    sheetCols (generate_excel_report_sheet sh) = sheetCols sh := by
  show findCols (((sh.header.map fmtHeaderCell).map fmtHeaderCell).map (·.value)) =
    findCols ((sh.header.map fmtHeaderCell).map (·.value))
  rw [formattedHeader_values (sh.header.map fmtHeaderCell)]

theorem formattedRows_generate (sh : Sheet) :
    formattedRows (generate_excel_report_sheet sh) = formattedRows sh := by
  show applyDateRule (sheetCols (generate_excel_report_sheet sh)).2
      (applyLinkRule (sheetCols (generate_excel_report_sheet sh)).1 (formattedRows sh)) =
    formattedRows sh
  rw [sheetCols_generate]
  exact applyRules_idem (sheetCols sh).1 (sheetCols sh).2 sh.rows

theorem adjust_column_widths_idem (h : List Cell) (r : List (List Cell)) (w : Nat → ℚ) :
    adjust_column_widths h r (adjust_column_widths h r w) = adjust_column_widths h r w := by
  funext j
  unfold adjust_column_widths
  by_cases hj : j < h.length <;> simp [hj]

/-! ## Header-scan characterization -/

theorem findColsAux_fst_spec (vals : List CellVal) :
    ∀ (i : Nat) (li di : Option Nat),
      (findColsAux i (li, di) vals).1 = li ∨
      ∃ k, vals[k]? = some (.s "Issue link") ∧
        (findColsAux i (li, di) vals).1 = some (i + k) := by
  induction vals with
  | nil => intro i li di; exact .inl rfl
  | cons v t ih =>
    intro i li di
    by_cases hv : v = CellVal.s "Issue link"
    · have hred : findColsAux i (li, di) (v :: t) = findColsAux (i + 1) (some i, di) t := by
        simp [findColsAux, hv]
      rcases ih (i + 1) (some i) di with h | ⟨k, hk, hres⟩
      · refine .inr ⟨0, by simp [hv], ?_⟩
        rw [hred, h]
        simp
      · refine .inr ⟨k + 1, by simpa using hk, ?_⟩
        rw [hred, hres]
        congr 1
        omega
    · by_cases hv2 : v = CellVal.s "Created"
      · have hred : findColsAux i (li, di) (v :: t) = findColsAux (i + 1) (li, some i) t := by
          simp [findColsAux, hv, hv2]
        rcases ih (i + 1) li (some i) with h | ⟨k, hk, hres⟩
        · exact .inl (by rw [hred, h])
        · refine .inr ⟨k + 1, by simpa using hk, ?_⟩
          rw [hred, hres]
          congr 1
          omega
      · have hred : findColsAux i (li, di) (v :: t) = findColsAux (i + 1) (li, di) t := by
          simp [findColsAux, hv, hv2]
        rcases ih (i + 1) li di with h | ⟨k, hk, hres⟩
        · exact .inl (by rw [hred, h])
        · refine .inr ⟨k + 1, by simpa using hk, ?_⟩
          rw [hred, hres]
          congr 1
          omega

theorem findColsAux_snd_spec (vals : List CellVal) :
    ∀ (i : Nat) (li di : Option Nat),
      (findColsAux i (li, di) vals).2 = di ∨
      ∃ k, vals[k]? = some (.s "Created") ∧
        (findColsAux i (li, di) vals).2 = some (i + k) := by
  induction vals with
  | nil => intro i li di; exact .inl rfl
  | cons v t ih =>
    intro i li di
    by_cases hv : v = CellVal.s "Issue link"
    · have hred : findColsAux i (li, di) (v :: t) = findColsAux (i + 1) (some i, di) t := by
        simp [findColsAux, hv]
      rcases ih (i + 1) (some i) di with h | ⟨k, hk, hres⟩
      · exact .inl (by rw [hred, h])
      · refine .inr ⟨k + 1, by simpa using hk, ?_⟩
        rw [hred, hres]
        congr 1
        omega
    · by_cases hv2 : v = CellVal.s "Created"
      · have hred : findColsAux i (li, di) (v :: t) = findColsAux (i + 1) (li, some i) t := by
          simp [findColsAux, hv, hv2]
        rcases ih (i + 1) li (some i) with h | ⟨k, hk, hres⟩
        · refine .inr ⟨0, by simp [hv2], ?_⟩
          rw [hred, h]
          simp
        · refine .inr ⟨k + 1, by simpa using hk, ?_⟩
          rw [hred, hres]
          congr 1
          omega
      · have hred : findColsAux i (li, di) (v :: t) = findColsAux (i + 1) (li, di) t := by
          simp [findColsAux, hv, hv2]
        rcases ih (i + 1) li di with h | ⟨k, hk, hres⟩
        · exact .inl (by rw [hred, h])
        · refine .inr ⟨k + 1, by simpa using hk, ?_⟩
          rw [hred, hres]
          congr 1
          omega

theorem findCols_fst_spec (vals : List CellVal) (j : Nat)
    (h : (findCols vals).1 = some j) : vals[j]? = some (.s "Issue link") := by
  rcases findColsAux_fst_spec vals 0 none none with h0 | ⟨k, hk, hres⟩
  · exact Option.noConfusion (h.symm.trans h0)
  · have hkj : 0 + k = j := by
      have h2 := hres.symm.trans h
      injection h2
    subst hkj
    simpa using hk

theorem findCols_snd_spec (vals : List CellVal) (j : Nat)
    (h : (findCols vals).2 = some j) : vals[j]? = some (.s "Created") := by
  rcases findColsAux_snd_spec vals 0 none none with h0 | ⟨k, hk, hres⟩
  · exact Option.noConfusion (h.symm.trans h0)
  · have hkj : 0 + k = j := by
      have h2 := hres.symm.trans h
      injection h2
    subst hkj
    simpa using hk

theorem findCols_ne (vals : List CellVal) (j k : Nat)
    (hj : (findCols vals).1 = some j) (hk : (findCols vals).2 = some k) : j ≠ k := by
  intro he
  subst he
  have h1 := findCols_fst_spec vals j hj
  have h2 := findCols_snd_spec vals j hk
  rw [h1] at h2
  injection h2 with h3
  exact absurd h3 (by decide)

/-- C8: the Link column is located by scanning the header row for the
`Issue link` header text (the found index always carries that header —
no fixed position is assumed); when found, every data cell of that
column holding a non-empty string value becomes a hyperlink targeting
that string with the `Hyperlink` style; when no header matches, the rule
is skipped and no cell's hyperlink or style is touched (the pass is a
total function — nothing can error). -/
theorem hyperlink_rule (sh : Sheet) :
    (∀ j, (sheetCols sh).1 = some j →
      (sh.header.map (·.value))[j]? = some (.s "Issue link")) ∧
    (∀ j, (sheetCols sh).1 = some j →
      ∀ (i : Nat) (r : List Cell) (c : Cell) (x : String),
        sh.rows[i]? = some r → r[j]? = some c → c.value = .s x → x ≠ "" →
        ∃ r', (generate_excel_report_sheet sh).rows[i]? = some r' ∧
          r'[j]? = some { c with hyperlink := some x, styleName := some "Hyperlink" }) ∧
    ((sheetCols sh).1 = none →
      (generate_excel_report_sheet sh).rows.map (fun r => r.map (·.hyperlink)) =
        sh.rows.map (fun r => r.map (·.hyperlink)) ∧
      (generate_excel_report_sheet sh).rows.map (fun r => r.map (·.styleName)) =
        sh.rows.map (fun r => r.map (·.styleName))) := by
  refine ⟨?_, ?_, ?_⟩
  · intro j hj
    have h := findCols_fst_spec _ j hj
    rw [formattedHeader_values] at h
    exact h
  · intro j hj i r c x hi hr hc hx
    have hlc : linkRuleCell c = { c with hyperlink := some x, styleName := some "Hyperlink" } := by
      unfold linkRuleCell
      rw [hc]
      simp [hx]
    have hrows : (generate_excel_report_sheet sh).rows =
        applyDateRule (sheetCols sh).2 (sh.rows.map (mapAt j linkRuleCell)) := by
      show formattedRows sh = _
      unfold formattedRows
      rw [hj]
      rfl
    cases hd : (sheetCols sh).2 with
    | none =>
      refine ⟨mapAt j linkRuleCell r, ?_, ?_⟩
      · rw [hrows, hd]
        show (sh.rows.map (mapAt j linkRuleCell))[i]? = _
        rw [List.getElem?_map, hi]
        rfl
      · rw [mapAt_getElem_eq, hr]
        show some (linkRuleCell c) = _
        rw [hlc]
    | some kd =>
      have hne : kd ≠ j :=
        fun he => (findCols_ne _ j kd hj hd) he.symm
      refine ⟨mapAt kd dateRuleCell (mapAt j linkRuleCell r), ?_, ?_⟩
      · rw [hrows, hd]
        show ((sh.rows.map (mapAt j linkRuleCell)).map (mapAt kd dateRuleCell))[i]? = _
        rw [List.getElem?_map, List.getElem?_map, hi]
        rfl
      · rw [mapAt_getElem_ne dateRuleCell kd j hne, mapAt_getElem_eq, hr]
        show some (linkRuleCell c) = _
        rw [hlc]
  · intro hnone
    have hrows : (generate_excel_report_sheet sh).rows =
        applyDateRule (sheetCols sh).2 sh.rows := by
      show formattedRows sh = _
      unfold formattedRows
      rw [hnone]
      rfl
    rw [hrows]
    exact ⟨applyDateRule_hyperlinks _ _, applyDateRule_styleNames _ _⟩

/-- A two-column demo sheet whose second column carries the `Issue link`
header and a URL-valued data cell. -/
def demoLinkSheet : Sheet where
  header := [⟨.s "Issue Key", false, none, none, none, none⟩,
    ⟨.s "Issue link", false, none, none, none, none⟩]
  rows := [[⟨.s "PROJ-1", false, none, none, none, none⟩,
    ⟨.s "https://jira/browse/PROJ-1", false, none, none, none, none⟩]]
  colWidths := fun _ => 13
  autoFilterRef := none

/-- A demo sheet with no `Issue link` header. -/
def demoNoLinkSheet : Sheet where
  header := [⟨.s "Issue Key", false, none, none, none, none⟩]
  rows := [[⟨.s "PROJ-9", false, none, some "keep", some "Normal", none⟩]]
  colWidths := fun _ => 13
  autoFilterRef := none

/-- C8 witness: on `demoLinkSheet` the scan finds the link column at
index 1 and the URL cell becomes a hyperlink with the `Hyperlink` style;
on `demoNoLinkSheet` the rule is skipped and hyperlinks and styles are
untouched. -/
theorem hyperlink_rule_witness :
    (sheetCols demoLinkSheet).1 = some 1 ∧
    (∃ r', (generate_excel_report_sheet demoLinkSheet).rows[0]? = some r' ∧
      r'[1]? = some ⟨.s "https://jira/browse/PROJ-1", false, none,
        some "https://jira/browse/PROJ-1", some "Hyperlink", none⟩) ∧
    (generate_excel_report_sheet demoNoLinkSheet).rows.map (fun r => r.map (·.hyperlink)) =
      [[some "keep"]] := by
  refine ⟨by decide, ?_, ?_⟩
  · exact (hyperlink_rule demoLinkSheet).2.1 1 (by decide) 0 _ _
      "https://jira/browse/PROJ-1" rfl rfl rfl (by decide)
  · have h := ((hyperlink_rule demoNoLinkSheet).2.2 (by decide)).1
    rw [h]
    rfl

/-- C9: the per-sheet formatting pass is deterministic (it is a function)
and idempotent — applying it twice yields exactly the sheet state of one
application — and it never changes cell values: the header's and every
data cell's value (in particular those the date-format rule touches) are
the same after formatting, only presentation attributes change. -/
theorem sheet_format_idempotent (sh : Sheet) :
    generate_excel_report_sheet (generate_excel_report_sheet sh) =
      generate_excel_report_sheet sh ∧
    (generate_excel_report_sheet sh).header.map (·.value) = sh.header.map (·.value) ∧
    (generate_excel_report_sheet sh).rows.map (fun r => r.map (·.value)) =
      sh.rows.map (fun r => r.map (·.value)) := by
  refine ⟨?_, ?_, ?_⟩
  · have hh := formattedHeader_generate sh
    have hr := formattedRows_generate sh
    have hstep : generate_excel_report_sheet (generate_excel_report_sheet sh) =
        { header := formattedHeader (generate_excel_report_sheet sh)
          rows := formattedRows (generate_excel_report_sheet sh)
          colWidths := adjust_column_widths (formattedHeader (generate_excel_report_sheet sh))
            (formattedRows (generate_excel_report_sheet sh))
            (adjust_column_widths (formattedHeader sh) (formattedRows sh) sh.colWidths)
          autoFilterRef := some (1 + (formattedRows (generate_excel_report_sheet sh)).length,
            (formattedHeader (generate_excel_report_sheet sh)).length) } := rfl
    rw [hstep, hh, hr, adjust_column_widths_idem]
    rfl
  · exact formattedHeader_values sh.header
  · show (applyDateRule (sheetCols sh).2 (applyLinkRule (sheetCols sh).1 sh.rows)).map
      (fun r => r.map (·.value)) = sh.rows.map (fun r => r.map (·.value))
    rw [applyDateRule_values, applyLinkRule_values]

end JiraIssues
